import Mathlib

/-!
Shallow embedding of the Lamport-clock virtual-machine simulator
(files src/logclock.py, src/src/virtual_machines_multiprocess.py,
src/clocks.py) and proofs about its tick loop, clock rules, inbox
discipline and lifecycle operations.

Network effects are abstracted by a `deliver : Nat → Bool` oracle telling
whether a one-shot connection to a given recipient succeeds; randomness is
abstracted by passing the drawn integer (`event_type` / `rand`) as an
argument to the tick function.
-/

/-- Kind of an emitted event record: a message receipt, a (unicast or
broadcast) send, or a purely internal event. -/
inductive EventKind
  | Receive
  | Send
  | Internal
deriving DecidableEq, Repr

/-- One per-tick event record, as handed to the logging collaborator:
the kind, the logical clock value right after the tick's clock mutation,
the inbox length at emission time (meaningful for receives), the peers the
machine attempted to send to this tick, and the received value (for
receives). -/
structure EventRecord where
  kind : EventKind
  logicalClockAfter : Nat
  queueLengthAtEmit : Nat
  recipients : List Nat
  receivedValue : Option Nat
deriving DecidableEq, Repr

/-- Record for a Receive event: logs the post-update clock, the queue
length after the pop, and the received value. -/
def receiveRecord (clock qlen v : Nat) : EventRecord :=
  { kind := EventKind.Receive, logicalClockAfter := clock,
    queueLengthAtEmit := qlen, recipients := [], receivedValue := some v }

/-- Record for a Send event: logs the post-update clock and the intended
recipients (the peers send calls were issued for, independent of delivery
success). -/
def sendRecord (clock : Nat) (recipients : List Nat) : EventRecord :=
  { kind := EventKind.Send, logicalClockAfter := clock,
    queueLengthAtEmit := 0, recipients := recipients, receivedValue := none }

/-- Record for an Internal event: logs only the post-update clock. -/
def internalRecord (clock : Nat) : EventRecord :=
  { kind := EventKind.Internal, logicalClockAfter := clock,
    queueLengthAtEmit := 0, recipients := [], receivedValue := none }

/-- FIFO queue push (queue.Queue.put): appends at the tail. -/
def queuePut (q : List Nat) (v : Nat) : List Nat := q ++ [v]

/-- FIFO queue pop (queue.Queue.get_nowait): removes and returns the head
if present. -/
def queueGet : List Nat → Option (Nat × List Nat)
  | [] => none
  | x :: rest => some (x, rest)

/-- Draining a queue by repeated queueGet until empty, collecting the
popped values in pop order. -/
def drainAll : List Nat → List Nat
  | [] => []
  | x :: rest => x :: drainAll rest

namespace Logclock

/-- The state of one virtual machine of src/logclock.py that the tick loop
reads and writes: the logical clock, the FIFO message queue fed by the
listener, the fixed ordered peer list, and the sequence of event records
written to the log so far. -/
structure VMState where
  logical_clock : Nat
  message_queue : List Nat
  peers : List Nat
  log : List EventRecord
deriving DecidableEq, Repr

/-- Result of one completed tick: the updated machine state, the event
record emitted this tick, and the (recipient, payload) messages actually
placed on the network. -/
structure TickOut where
  state : VMState
  record : EventRecord
  delivered : List (Nat × Nat)
deriving DecidableEq, Repr

/-- Model of VirtualMachine.send_message (src/logclock.py lines 91-105):
one-shot best-effort delivery of the current logical clock value to
recipient_id; any connection error is caught inside the function and
swallowed, so the function always returns normally. The deliver oracle
abstracts whether the connection succeeds; on success the message reaches
the network, on failure nothing does. -/
def send_message (deliver : Nat → Bool) (logical_clock recipient_id : Nat) :
    List (Nat × Nat) :=
  if deliver recipient_id then [(recipient_id, logical_clock)] else []

/-- Model of one iteration of VirtualMachine.run's while loop
(src/logclock.py lines 147-179), excluding the wall-clock sleep. If the
message queue is non-empty the head is popped and the Lamport receive rule
applied; otherwise the drawn event_type selects the branch: 1 sends to
peers[0], 2 sends to peers[1], 3 sends to all peers, anything else is an
internal event. Indexing peers[0] or peers[1] without enough peers raises
IndexError in the source, modelled as result none (the clock mutation is
then lost with the crashed tick). -/
def run_tick (s : VMState) (event_type : Nat) (deliver : Nat → Bool) :
    Option TickOut :=
  match s.message_queue with
  | received_time :: rest =>
      let clock := max s.logical_clock received_time + 1
      let e := receiveRecord clock rest.length received_time
      let s2 : VMState :=
        { s with logical_clock := clock, message_queue := rest, log := s.log ++ [e] }
      some { state := s2, record := e, delivered := [] }
  | [] =>
      let clock := s.logical_clock + 1
      match event_type, s.peers with
      | 1, peer :: _ =>
          let e := sendRecord clock [peer]
          let s2 : VMState := { s with logical_clock := clock, log := s.log ++ [e] }
          some { state := s2, record := e,
                 delivered := send_message deliver clock peer }
      | 1, [] => none
      | 2, _ :: peer :: _ =>
          let e := sendRecord clock [peer]
          let s2 : VMState := { s with logical_clock := clock, log := s.log ++ [e] }
          some { state := s2, record := e,
                 delivered := send_message deliver clock peer }
      | 2, [] => none
      | 2, [_] => none
      | 3, _ =>
          let e := sendRecord clock s.peers
          let s2 : VMState := { s with logical_clock := clock, log := s.log ++ [e] }
          some { state := s2, record := e,
                 delivered := s.peers.foldl
                   (fun acc p => acc ++ send_message deliver clock p) [] }
      | _, _ =>
          let e := internalRecord clock
          let s2 : VMState := { s with logical_clock := clock, log := s.log ++ [e] }
          some { state := s2, record := e, delivered := [] }

end Logclock

namespace Multiprocess

/-- The state of one virtual machine of
src/src/virtual_machines_multiprocess.py: the logical clock, the network
queue filled by the listener, the message queue the scheduler consumes,
the fixed peer list, and the log written so far. -/
structure VMState where
  logical_clock : Nat
  network_queue : List Nat
  message_queue : List Nat
  peers : List Nat
  log : List EventRecord
deriving DecidableEq, Repr

/-- Result of one tick of the multiprocess variant. -/
structure TickOut where
  state : VMState
  record : EventRecord
  delivered : List (Nat × Nat)
deriving DecidableEq, Repr

/-- Model of the transfer loop at the top of VirtualMachine.run
(src/src/virtual_machines_multiprocess.py lines 150-152): while the
network queue is non-empty, pop its head and push it onto the message
queue. Returns the resulting message queue; the network queue ends empty. -/
def drain_network : List Nat → List Nat → List Nat
  | [], mq => mq
  | x :: rest, mq => drain_network rest (queuePut mq x)

/-- Model of VirtualMachine.send_message
(src/src/virtual_machines_multiprocess.py lines 99-108): identical
best-effort semantics to the logclock variant; all connection errors are
caught and swallowed. -/
def send_message (deliver : Nat → Bool) (logical_clock recipient_id : Nat) :
    List (Nat × Nat) :=
  if deliver recipient_id then [(recipient_id, logical_clock)] else []

/-- Model of one iteration of VirtualMachine.run's while loop
(src/src/virtual_machines_multiprocess.py lines 147-181), excluding the
sleep. First the network queue is drained into the message queue; if the
message queue is then non-empty its head is processed by the Lamport
receive rule; otherwise the drawn event_type selects the branch, with
positional sends guarded by peer-count checks (event_type 1 needs at least
1 peer, event_type 2 at least 2); a failed guard falls through to the
internal-event else branch. The tick is total: no branch can raise. -/
def run_tick (s : VMState) (event_type : Nat) (deliver : Nat → Bool) :
    TickOut :=
  let mq := drain_network s.network_queue s.message_queue
  match mq with
  | received_time :: rest =>
      let clock := max s.logical_clock received_time + 1
      let e := receiveRecord clock rest.length received_time
      let s2 : VMState :=
        { s with logical_clock := clock, network_queue := [], message_queue := rest, log := s.log ++ [e] }
      { state := s2, record := e, delivered := [] }
  | [] =>
      let clock := s.logical_clock + 1
      let base : VMState :=
        { s with logical_clock := clock, network_queue := [], message_queue := [] }
      match event_type, s.peers with
      | 1, peer :: _ =>
          let e := sendRecord clock [peer]
          { state := { base with log := s.log ++ [e] },
            record := e, delivered := send_message deliver clock peer }
      | 2, _ :: peer :: _ =>
          let e := sendRecord clock [peer]
          { state := { base with log := s.log ++ [e] },
            record := e, delivered := send_message deliver clock peer }
      | 3, _ =>
          let e := sendRecord clock s.peers
          { state := { base with log := s.log ++ [e] },
            record := e,
            delivered := s.peers.foldl
              (fun acc p => acc ++ send_message deliver clock p) [] }
      | _, _ =>
          let e := internalRecord clock
          { state := { base with log := s.log ++ [e] },
            record := e, delivered := [] }

end Multiprocess

namespace Clocks

/-- The state of one virtual machine of src/clocks.py: the logical clock,
the message queue filled by the per-connection handlers, the sorted list
of other machines' ports (positional sends index into it), and the log of
JSON event records written so far. -/
structure VMState where
  logical_clock : Nat
  message_queue : List Nat
  other_ports : List Nat
  log : List EventRecord
deriving DecidableEq, Repr

/-- Model of VirtualMachine.process_message (src/clocks.py lines 89-101):
pop the head message, apply the Lamport receive rule, and log a receive
record carrying the queue length after the pop. Returns none when the
queue is empty (the source only calls it under a non-empty guard). -/
def process_message (s : VMState) : Option VMState :=
  match s.message_queue with
  | [] => none
  | received_time :: rest =>
      let clock := max s.logical_clock received_time + 1
      let e := receiveRecord clock rest.length received_time
      some { s with logical_clock := clock, message_queue := rest, log := s.log ++ [e] }

/-- Model of VirtualMachine.process_event (src/clocks.py lines 103-128)
with the drawn integer rand passed in. For rand ≤ 3 the recipients are all
other ports (rand = 3) or the single port at position rand - 1 (IndexError,
modelled as none, when that position is absent — in the source this happens
before the clock increment); the clock then advances by one and each
recipient with a live outgoing socket is sent the new clock, send errors
swallowed. For rand in [4,10] the clock advances by one with no network
I/O. Returns the updated state plus the delivered messages. -/
def process_event (s : VMState) (rand : Nat) (deliver : Nat → Bool) :
    Option (VMState × List (Nat × Nat)) :=
  if rand ≤ 3 then
    let maybe_recipients : Option (List Nat) :=
      if rand = 3 then some s.other_ports
      else (s.other_ports.get? (rand - 1)).map fun p => [p]
    match maybe_recipients with
    | none => none
    | some recipients =>
        let clock := s.logical_clock + 1
        let delivered := recipients.foldl
          (fun acc p => acc ++ (if deliver p then [(p, clock)] else [])) []
        let s2 : VMState :=
          { s with logical_clock := clock, log := s.log ++ [sendRecord clock recipients] }
        some (s2, delivered)
  else
    let clock := s.logical_clock + 1
    let s2 : VMState :=
      { s with logical_clock := clock, log := s.log ++ [internalRecord clock] }
    some (s2, [])

/-- Model of one iteration of VirtualMachine.main_loop (src/clocks.py
lines 76-87), excluding the sleep: process one message if the queue is
non-empty, else generate an event from the drawn integer. -/
def main_loop_tick (s : VMState) (rand : Nat) (deliver : Nat → Bool) :
    Option (VMState × List (Nat × Nat)) :=
  match s.message_queue with
  | _ :: _ => (process_message s).map fun s2 => (s2, [])
  | [] => process_event s rand deliver

end Clocks

/-- Value of a decimal digit character, none for any other character. -/
def digitVal (c : Char) : Option Nat :=
  if c.isDigit then some (c.toNat - 48) else none

/-- Value of a non-empty all-digit character list read as a decimal
numeral; none when the list is empty or any character is not a digit. -/
def digitsVal (cs : List Char) : Option Nat :=
  if cs = [] then none
  else
    cs.foldl
      (fun acc c =>
        match acc, digitVal c with
        | some a, some dv => some (a * 10 + dv)
        | _, _ => none)
      (some 0)

/-- Model of CPython int() applied to a decoded payload string: strips
surrounding whitespace, accepts one optional sign followed by one or more
decimal digits, and fails (ValueError) on anything else. Digit-group
underscores are not modelled; no payload this system produces contains
them. -/
def int_of_string (s : String) : Option Int :=
  let stripped :=
    ((s.toList.dropWhile Char.isWhitespace).reverse.dropWhile
      Char.isWhitespace).reverse
  match stripped with
  | '-' :: rest => (digitsVal rest).map fun n => -(n : Int)
  | '+' :: rest => (digitsVal rest).map fun n => (n : Int)
  | rest => (digitsVal rest).map fun n => (n : Int)

/-- Model of VirtualMachine.handle_client (src/logclock.py lines 76-89;
identically src/src/virtual_machines_multiprocess.py lines 85-97, where
the target is the network queue): the decoded payload, when non-empty, is
parsed with int() and the value enqueued; a parse failure raises
ValueError inside the try block, which the handler catches, so nothing is
enqueued and no exception escapes. An empty payload is skipped by the
falsy-string guard. Totality of this function models the absence of a
crash. -/
def handle_client (q : List Int) (message : String) : List Int :=
  if message = "" then q
  else
    match int_of_string message with
    | some v => q ++ [v]
    | none => q

namespace Multiprocess

/-- The lifecycle state VirtualMachine.stop reads and writes in the
multiprocess variant: the running flag, whether the listener has already
stored its server socket on the instance, whether that socket is open,
whether the log file has been closed, and the lines written to the log. -/
structure LifecycleState where
  running : Bool
  has_server_socket : Bool
  server_socket_open : Bool
  log_file_closed : Bool
  log_lines : List String
deriving DecidableEq, Repr

/-- The closing banner VirtualMachine.stop writes to the log file. -/
def logEndBanner : String := "\n============= VM LOG END =============\n"

/-- Model of VirtualMachine.stop
(src/src/virtual_machines_multiprocess.py lines 187-195): clear the
running flag; close the server socket if the listener has stored one
(closing an already-closed socket is a no-op in Python, modelled by
setting the open flag false again); if the log file is still open, write
the end banner and close it, else skip the write entirely. -/
def stop (s : LifecycleState) : LifecycleState :=
  let s1 : LifecycleState := { s with running := false }
  let s2 : LifecycleState :=
    if s1.has_server_socket then { s1 with server_socket_open := false } else s1
  if s2.log_file_closed then s2
  else { s2 with log_lines := s2.log_lines ++ [logEndBanner], log_file_closed := true }

/-- Iterating VirtualMachine.run's loop body over a list of drawn
event-type integers, one tick per draw, with a fixed delivery oracle. -/
def run_ticks (s : VMState) (draws : List Nat) (deliver : Nat → Bool) : VMState :=
  draws.foldl (fun st et => (run_tick st et deliver).state) s

end Multiprocess

/-- The logical-clock values recorded in a log, in emission order. -/
def clockValues (log : List EventRecord) : List Nat :=
  log.map EventRecord.logicalClockAfter

/-- Model of the per-tick sleep computation shared by all three variants
(src/logclock.py line 182, src/src/virtual_machines_multiprocess.py line
184, src/clocks.py line 86): sleep for the unused part of the tick budget,
clamped at zero. Times are rationals standing for seconds. -/
def sleep_time (clock_rate elapsed : ℚ) : ℚ :=
  max 0 (1 / clock_rate - elapsed)

/-- The network-to-message transfer loop appends the network queue, in
arrival order, after the existing message queue. -/
theorem drain_network_eq (net mq : List Nat) :
    Multiprocess.drain_network net mq = mq ++ net := by
  induction net generalizing mq with
  | nil => simp [Multiprocess.drain_network]
  | cons x rest ih => simp [Multiprocess.drain_network, queuePut, ih]

/-- Draining a queue by repeated pops returns its elements in queue
order. -/
theorem drainAll_eq (q : List Nat) : drainAll q = q := by
  induction q with
  | nil => rfl
  | cons x rest ih => simp [drainAll, ih]

/-- C1: in every variant's receive path, processing a received value v
while the clock holds c sets the logical clock to max(c, v) + 1, the
Lamport receive rule. -/
theorem c1_lamport_receive_rule (c v : Nat) (rest peers net oports : List Nat)
    (lg : List EventRecord) (et : Nat) (d : Nat → Bool) :
    (Logclock.run_tick ⟨c, v :: rest, peers, lg⟩ et d).map
        (fun o => o.state.logical_clock) = some (max c v + 1) ∧
    (Multiprocess.run_tick ⟨c, net, v :: rest, peers, lg⟩ et d).state.logical_clock
        = max c v + 1 ∧
    (Clocks.process_message ⟨c, v :: rest, oports, lg⟩).map
        (fun s2 => s2.logical_clock) = some (max c v + 1) := by
  refine ⟨rfl, ?_, rfl⟩
  simp [Multiprocess.run_tick, drain_network_eq]

/-- C2: in every variant, a locally generated event (send or internal
alike) sets the logical clock to exactly c + 1, independent of any
external value. -/
theorem c2_local_event_rule (c et rand : Nat) (peers mq oports : List Nat)
    (lg : List EventRecord) (d : Nat → Bool) :
    ((Logclock.run_tick ⟨c, [], peers, lg⟩ et d).elim True
        (fun out => out.state.logical_clock = c + 1)) ∧
    (Multiprocess.run_tick ⟨c, [], [], peers, lg⟩ et d).state.logical_clock
        = c + 1 ∧
    ((Clocks.process_event ⟨c, mq, oports, lg⟩ rand d).elim True
        (fun out => out.1.logical_clock = c + 1)) := by
  refine ⟨?_, ?_, ?_⟩
  · unfold Logclock.run_tick
    repeat' split
    all_goals simp_all
  · unfold Multiprocess.run_tick
    simp only [drain_network_eq, List.nil_append]
    split <;> rfl
  · unfold Clocks.process_event
    split
    · split
      · simp
      · rcases h0 : oports[rand - 1]? with _ | p <;> simp [h0]
    · simp

/-- One multiprocess tick appends exactly one record to the log, stamps
it with the post-mutation clock value, and strictly increases the clock. -/
theorem mp_tick_step (s : Multiprocess.VMState) (et : Nat) (d : Nat → Bool) :
    (Multiprocess.run_tick s et d).state.log
        = s.log ++ [(Multiprocess.run_tick s et d).record] ∧
    (Multiprocess.run_tick s et d).record.logicalClockAfter
        = (Multiprocess.run_tick s et d).state.logical_clock ∧
    s.logical_clock < (Multiprocess.run_tick s et d).state.logical_clock := by
  unfold Multiprocess.run_tick
  rcases hq : Multiprocess.drain_network s.network_queue s.message_queue with
    _ | ⟨v, rest⟩
  · simp only [hq]
    refine ⟨?_, ?_, ?_⟩ <;> (repeat' split) <;>
      simp [receiveRecord, sendRecord, internalRecord]
  · simp only [hq, receiveRecord]
    refine ⟨?_, ?_, ?_⟩
    all_goals try trivial
    exact Nat.lt_succ_of_le le_sup_left

/-- Invariant carried across multiprocess ticks: the logged clock values
are strictly increasing and all bounded by the current clock, and each
tick adds exactly one record. -/
theorem mp_run_ticks_invariant (draws : List Nat) (s : Multiprocess.VMState)
    (d : Nat → Bool)
    (h1 : List.Chain' (fun a b => a < b) (clockValues s.log))
    (h2 : ∀ x ∈ clockValues s.log, x ≤ s.logical_clock) :
    List.Chain' (fun a b => a < b)
        (clockValues (Multiprocess.run_ticks s draws d).log) ∧
    (∀ x ∈ clockValues (Multiprocess.run_ticks s draws d).log,
        x ≤ (Multiprocess.run_ticks s draws d).logical_clock) ∧
    (Multiprocess.run_ticks s draws d).log.length
        = s.log.length + draws.length := by
  induction draws generalizing s with
  | nil => simpa [Multiprocess.run_ticks] using ⟨h1, h2⟩
  | cons et rest ih =>
    have hstep := mp_tick_step s et d
    have hlog := hstep.1
    have hstamp := hstep.2.1
    have hlt := hstep.2.2
    have hval : clockValues (Multiprocess.run_tick s et d).state.log
        = clockValues s.log
          ++ [(Multiprocess.run_tick s et d).record.logicalClockAfter] := by
      rw [hlog]; unfold clockValues; rw [List.map_append]; rfl
    have h1' : List.Chain' (fun a b => a < b)
        (clockValues (Multiprocess.run_tick s et d).state.log) := by
      rw [hval]
      rw [List.chain'_append]
      refine ⟨h1, List.chain'_singleton _, ?_⟩
      intro x hx y hy
      have hxmem : x ∈ clockValues s.log := by
        obtain ⟨hne, hxe⟩ := List.mem_getLast?_eq_getLast hx
        exact hxe ▸ List.getLast_mem hne
      have hy' : (Multiprocess.run_tick s et d).record.logicalClockAfter = y := by
        simpa using hy
      subst hy'
      calc x ≤ s.logical_clock := h2 x hxmem
        _ < (Multiprocess.run_tick s et d).state.logical_clock := hlt
        _ = (Multiprocess.run_tick s et d).record.logicalClockAfter := hstamp.symm
    have h2' : ∀ x ∈ clockValues (Multiprocess.run_tick s et d).state.log,
        x ≤ (Multiprocess.run_tick s et d).state.logical_clock := by
      intro x hx
      rw [hval] at hx
      rcases List.mem_append.1 hx with hold | hnew
      · exact le_of_lt (lt_of_le_of_lt (h2 x hold) hlt)
      · have : x = (Multiprocess.run_tick s et d).record.logicalClockAfter := by
          simpa using hnew
        exact this ▸ hstamp.le
    have hlen : (Multiprocess.run_tick s et d).state.log.length
        = s.log.length + 1 := by
      rw [hlog]; simp
    obtain ⟨g1, g2, g3⟩ := ih (Multiprocess.run_tick s et d).state h1' h2'
    refine ⟨g1, g2, ?_⟩
    show (Multiprocess.run_ticks (Multiprocess.run_tick s et d).state rest d).log.length
        = s.log.length + (et :: rest).length
    rw [g3, hlen]
    simp only [List.length_cons]
    omega

/-- Every completed logclock tick strictly increases the clock and
appends exactly its one emitted record to the log. -/
theorem lc_tick_step (s : Logclock.VMState) (et : Nat) (d : Nat → Bool) :
    (Logclock.run_tick s et d).elim True
      (fun o => s.logical_clock < o.state.logical_clock ∧
        o.state.log = s.log ++ [o.record]) := by
  unfold Logclock.run_tick
  rcases hq : s.message_queue with _ | ⟨v, rest⟩
  · simp only [hq]
    repeat' split
    all_goals simp
  · simp only [hq]
    exact ⟨Nat.lt_succ_of_le le_sup_left, rfl⟩

/-- Every completed clocks-variant tick strictly increases the clock and
appends exactly one record to the log. -/
theorem ck_tick_step (s : Clocks.VMState) (rand : Nat) (d : Nat → Bool) :
    (Clocks.main_loop_tick s rand d).elim True
      (fun o => s.logical_clock < o.1.logical_clock ∧
        o.1.log.length = s.log.length + 1) := by
  unfold Clocks.main_loop_tick Clocks.process_message Clocks.process_event
  rcases hq : s.message_queue with _ | ⟨v, rest⟩
  · simp only [hq]
    split
    · split
      · simp
      · rcases h0 : s.other_ports[rand - 1]? with _ | p <;> simp [h0]
    · simp
  · simp only [hq]
    refine ⟨Nat.lt_succ_of_le le_sup_left, by simp⟩

/-- C3 counterexample: a machine with exactly one peer that draws
event-type 2 does not emit a Send-kind record with an empty recipient set
in either cited variant. The multiprocess variant's guard on the
event-type-2 branch fails and the tick falls through to the internal-event
else branch, emitting an Internal-kind record; the logclock variant
indexes peers[1] unguarded and raises IndexError (modelled as none). -/
theorem c3_single_peer_event2_counterexample :
    (Multiprocess.run_tick ⟨0, [], [], [9], []⟩ 2 (fun _ => true)).record.kind
        = EventKind.Internal ∧
    EventKind.Internal ≠ EventKind.Send ∧
    Logclock.run_tick ⟨0, [], [9], []⟩ 2 (fun _ => true) = none :=
  ⟨rfl, by decide, rfl⟩

/-- C3 (amended): for a machine with exactly one peer whose tick draws
event-type 2, the multiprocess variant still advances the clock by exactly
1 but records the tick as an Internal event with no recipients and no
network I/O (the send degrades to an internal event, not to an
empty-recipient send); the logclock variant instead raises IndexError on
peers[1], so that tick emits no record at all. -/
theorem c3_single_peer_event2_amended (c p : Nat) (lg : List EventRecord)
    (d : Nat → Bool) :
    (Multiprocess.run_tick ⟨c, [], [], [p], lg⟩ 2 d).state.logical_clock
        = c + 1 ∧
    (Multiprocess.run_tick ⟨c, [], [], [p], lg⟩ 2 d).record
        = internalRecord (c + 1) ∧
    (Multiprocess.run_tick ⟨c, [], [], [p], lg⟩ 2 d).delivered = [] ∧
    Logclock.run_tick ⟨c, [], [p], lg⟩ 2 d = none :=
  ⟨rfl, rfl, rfl, rfl⟩

/-- C4 counterexample: not every tick emits exactly one event record. A
machine with exactly one peer that draws event-type 2 crashes its tick in
two variants, and the crashed tick emits zero records: logclock.py
executes its clock increment (line 160) and then raises IndexError on
peers[1] (line 169) — one clock mutation, no record — and clocks.py
raises IndexError on other_ports[rand - 1] (line 106) before its
increment (line 107) — no mutation, no record. Both crashes are modelled
as the tick returning none, the case in which no record is appended. -/
theorem c4_crash_tick_counterexample :
    Logclock.run_tick ⟨3, [], [5], []⟩ 2 (fun _ => true) = none ∧
    Clocks.main_loop_tick ⟨3, [], [5], []⟩ 2 (fun _ => true) = none :=
  ⟨rfl, rfl⟩

/-- C4 (amended): for a multiprocess machine started fresh, the sequence
of logicalClockAfter values across its log is strictly increasing tick
over tick and the log holds exactly one record per executed tick (its
ticks are total); in the logclock and clocks variants the same
strict-increase and exactly-one-record discipline holds for every tick
that completes, while a tick that crashes on a missing positional peer
emits no record. -/
theorem c4_monotone_one_record_per_tick (net mq peers draws : List Nat)
    (d : Nat → Bool) (s : Logclock.VMState) (s3 : Clocks.VMState)
    (et rand : Nat) :
    List.Chain' (fun a b => a < b)
        (clockValues (Multiprocess.run_ticks ⟨0, net, mq, peers, []⟩ draws d).log) ∧
    (Multiprocess.run_ticks ⟨0, net, mq, peers, []⟩ draws d).log.length
        = draws.length ∧
    ((Logclock.run_tick s et d).elim True
        (fun o => s.logical_clock < o.state.logical_clock ∧
          o.state.log = s.log ++ [o.record])) ∧
    ((Clocks.main_loop_tick s3 rand d).elim True
        (fun o => s3.logical_clock < o.1.logical_clock ∧
          o.1.log.length = s3.log.length + 1)) := by
  obtain ⟨g1, g2, g3⟩ := mp_run_ticks_invariant draws ⟨0, net, mq, peers, []⟩ d
    (by simp [clockValues]) (by simp [clockValues])
  exact ⟨g1, by simpa using g3, lc_tick_step s et d, ck_tick_step s3 rand d⟩

/-- C5: on a tick in the running state, a non-empty inbox makes the tick
pop exactly one message and process it as a Receive with no dependence on
the drawn integer; with an empty inbox, a draw of 1 sends to the peer at
position 0, 2 to the peer at position 1, 3 to every peer, and a draw in
[4,10] is an internal event with no network I/O, in both the logclock and
the clocks variant. -/
theorem c5_scheduler_dispatch (c v r : Nat) (rest ps qs : List Nat)
    (p0 p1 q0 q1 : Nat) (lg : List EventRecord) (mq : List Nat)
    (d : Nat → Bool) (h4 : 4 ≤ r) (h10 : r ≤ 10) :
    (∀ r2 r3, Logclock.run_tick ⟨c, v :: rest, ps, lg⟩ r2 d =
        Logclock.run_tick ⟨c, v :: rest, ps, lg⟩ r3 d) ∧
    ((Logclock.run_tick ⟨c, v :: rest, ps, lg⟩ r d).map
        (fun o => (o.record.kind, o.state.message_queue, o.record.receivedValue))
      = some (EventKind.Receive, rest, some v)) ∧
    ((Logclock.run_tick ⟨c, [], p0 :: p1 :: ps, lg⟩ 1 d).map (fun o => o.record)
      = some (sendRecord (c + 1) [p0])) ∧
    ((Logclock.run_tick ⟨c, [], p0 :: p1 :: ps, lg⟩ 2 d).map (fun o => o.record)
      = some (sendRecord (c + 1) [p1])) ∧
    ((Logclock.run_tick ⟨c, [], p0 :: p1 :: ps, lg⟩ 3 d).map (fun o => o.record)
      = some (sendRecord (c + 1) (p0 :: p1 :: ps))) ∧
    ((Logclock.run_tick ⟨c, [], p0 :: p1 :: ps, lg⟩ r d).map
        (fun o => (o.record, o.delivered))
      = some (internalRecord (c + 1), [])) ∧
    ((Clocks.process_event ⟨c, mq, q0 :: q1 :: qs, lg⟩ 1 d).map (fun o => o.1.log)
      = some (lg ++ [sendRecord (c + 1) [q0]])) ∧
    ((Clocks.process_event ⟨c, mq, q0 :: q1 :: qs, lg⟩ 2 d).map (fun o => o.1.log)
      = some (lg ++ [sendRecord (c + 1) [q1]])) ∧
    ((Clocks.process_event ⟨c, mq, q0 :: q1 :: qs, lg⟩ 3 d).map (fun o => o.1.log)
      = some (lg ++ [sendRecord (c + 1) (q0 :: q1 :: qs)])) ∧
    ((Clocks.process_event ⟨c, mq, q0 :: q1 :: qs, lg⟩ r d).map
        (fun o => (o.1.log, o.2))
      = some (lg ++ [internalRecord (c + 1)], [])) := by
  refine ⟨fun r2 r3 => rfl, rfl, rfl, rfl, rfl, ?_, rfl, rfl, rfl, ?_⟩ <;>
    interval_cases r <;> rfl

/-- Witness for C5: a drawn integer of 7 (in [4,10]) on an empty inbox is
an internal event with no delivery attempts. -/
theorem c5_scheduler_dispatch_witness :
    (4 : Nat) ≤ 7 ∧ (7 : Nat) ≤ 10 ∧
    ((Logclock.run_tick ⟨0, [], 11 :: 12 :: [], []⟩ 7 (fun _ => true)).map
        (fun o => (o.record, o.delivered))
      = some (internalRecord (0 + 1), [])) :=
  ⟨by decide, by decide,
    (c5_scheduler_dispatch 0 0 7 [] [] [] 11 12 13 14 [] [] (fun _ => true)
      (by decide) (by decide)).2.2.2.2.2.1⟩

/-- C6: the inbox is FIFO for a single consumer — pushing 5 then 10 and
draining returns 5 then 10 (and in general pushed values come back in
push order) — and the multiprocess network-to-message transfer preserves
this order. -/
theorem c6_fifo_inbox (q net mq : List Nat) (v w : Nat) :
    drainAll (queuePut (queuePut q 5) 10) = drainAll q ++ [5, 10] ∧
    drainAll (queuePut (queuePut q v) w) = drainAll q ++ [v, w] ∧
    Multiprocess.drain_network net mq = mq ++ net := by
  refine ⟨?_, ?_, drain_network_eq net mq⟩ <;> simp [drainAll_eq, queuePut]

/-- C7: a best-effort send never surfaces a connectivity failure to the
tick's control flow: the machine state and emitted record after a tick
are identical under any two delivery oracles, whether a tick completes is
independent of delivery, and in every variant the tick is not retried —
its entire observable outcome ignores the delivery result. -/
theorem c7_send_failure_oblivious (s : Logclock.VMState)
    (s2 : Multiprocess.VMState) (s3 : Clocks.VMState) (et rand : Nat)
    (d1 d2 : Nat → Bool) :
    (Logclock.run_tick s et d1).map (fun o => (o.state, o.record)) =
      (Logclock.run_tick s et d2).map (fun o => (o.state, o.record)) ∧
    ((Logclock.run_tick s et d1).isSome ↔ (Logclock.run_tick s et d2).isSome) ∧
    ((Multiprocess.run_tick s2 et d1).state,
        (Multiprocess.run_tick s2 et d1).record)
      = ((Multiprocess.run_tick s2 et d2).state,
        (Multiprocess.run_tick s2 et d2).record) ∧
    (Clocks.process_event s3 rand d1).map (fun o => o.1) =
      (Clocks.process_event s3 rand d2).map (fun o => o.1) := by
  refine ⟨?_, ?_, ?_, ?_⟩
  · unfold Logclock.run_tick
    rcases hq : s.message_queue with _ | ⟨v, rest⟩ <;> simp only [hq]
    repeat' split
    all_goals rfl
  · unfold Logclock.run_tick
    rcases hq : s.message_queue with _ | ⟨v, rest⟩ <;> simp only [hq]
    repeat' split
    all_goals simp
  · unfold Multiprocess.run_tick
    rcases hq : Multiprocess.drain_network s2.network_queue s2.message_queue with
      _ | ⟨v, rest⟩ <;> simp only [hq]
    repeat' split
    all_goals rfl
  · unfold Clocks.process_event
    split
    · split
      · rfl
      · rcases h0 : s3.other_ports[rand - 1]? with _ | p <;> simp [h0]
    · rfl

/-- C8: an inbound payload that does not parse as an integer is dropped:
nothing is enqueued (the handler catches the ValueError) and, the handler
being a total function, no exception escapes. -/
theorem c8_malformed_payload_dropped (q : List Int) (message : String)
    (h : int_of_string message = none) :
    handle_client q message = q := by
  unfold handle_client
  split
  · rfl
  · rw [h]

/-- Witness for C8: the non-integer payload abc is dropped, leaving the
inbox unchanged. -/
theorem c8_malformed_payload_dropped_witness :
    int_of_string "abc" = none ∧ handle_client [3] "abc" = [3] :=
  ⟨rfl, c8_malformed_payload_dropped [3] "abc" rfl⟩

/-- C9: the end-of-tick sleep equals max(0, tickBudget - elapsed) with
tickBudget = 1/ClockRate; when processing overruns the budget the sleep is
zero, otherwise it is exactly the unused part of the budget, and it is
never negative. -/
theorem c9_sleep_clamp (clock_rate elapsed : ℚ) :
    sleep_time clock_rate elapsed = max 0 (1 / clock_rate - elapsed) ∧
    (1 / clock_rate ≤ elapsed → sleep_time clock_rate elapsed = 0) ∧
    (elapsed ≤ 1 / clock_rate →
        sleep_time clock_rate elapsed = 1 / clock_rate - elapsed) ∧
    0 ≤ sleep_time clock_rate elapsed := by
  refine ⟨rfl, ?_, ?_, le_max_left 0 _⟩
  · intro h
    unfold sleep_time
    exact max_eq_left (by linarith)
  · intro h
    unfold sleep_time
    exact max_eq_right (by linarith)

/-- Witness for C9: at clock rate 2 an elapsed time of 1 second overruns
the half-second budget and sleeps zero; an elapsed time of a quarter
second sleeps the remaining quarter second. -/
theorem c9_sleep_clamp_witness :
    sleep_time 2 1 = 0 ∧ sleep_time 2 (1 / 4) = 1 / 2 - 1 / 4 :=
  ⟨(c9_sleep_clamp 2 1).2.1 (by norm_num),
    (c9_sleep_clamp 2 (1 / 4)).2.2.1 (by norm_num)⟩

/-- C10: stop in the multiprocess variant is idempotent — a second call
raises nothing and leaves the running flag, log file and server socket
exactly as the first call left them, because the log write is guarded by
a closed check and the socket close is a no-op on a closed socket. -/
theorem c10_stop_idempotent (s : Multiprocess.LifecycleState) :
    Multiprocess.stop (Multiprocess.stop s) = Multiprocess.stop s := by
  rcases s with ⟨r, hs, so, lc, ll⟩
  cases hs <;> cases lc <;> simp [Multiprocess.stop]
